import Mathlib

/-!
# protoc-states: compiler checks and workflow runtime

A shallow embedding of the Go sources `main.go` (the protoc plugin: transition
validation and the code template) and `workflows/workflow.go` (step chains, the
orchestration driver, registrations and the workflow processor), together with
the example handler of `example/example.go`.

Conventions of the embedding:

* a Go `error` result is an `Option GoError` (`none` is `nil`); a Go
  `(value, error)` result is an `Except GoError value`;
* a nilable pointer `*X` is an `Option X`;
* a Go `map[string]V` is a lookup function `String → Option V`, and an
  assignment `m[k] = v` is a point update;
* calls into the durable-task engine (activity dispatch, scheduling, backend and
  worker start/stop) are parameters or explicit state with a call log, so that
  "is invoked" and "is not invoked" are statements about that log.
-/

set_option autoImplicit false

namespace ProtocStates

/-! ## Go errors -/

/-- Go error values: `errors.New`, `fmt.Errorf` (format string and operands kept
apart) and the wrapper produced by `errors.Join`. -/
inductive GoError where
  | errorsNew (msg : String)
  | errorf (format : String) (args : List String)
  | join (errs : List GoError)

/-- Go's `errors.Join`: `nil` operands are discarded, the result is `nil` when no
operand is left, and otherwise wraps the remaining errors in argument order. -/
def errorsJoin (errs : List (Option GoError)) : Option GoError :=
  match errs.filterMap id with
  | [] => none
  | e :: es => some (GoError.join (e :: es))

/-! ## The schema types of `gen/state/v1` (declarations only) -/

namespace statev1

/-- The retry policy message of the schema. The numeric field types are those of
the generated protobuf struct; the coefficient is kept abstract (`F`). -/
structure RetryPolicy (F : Type) where
  MaxAttempts : Int
  InitialRetryIntervalSeconds : Int
  BackoffCoefficient : F
  MaxRetryIntervalSeconds : Int
  RetryTimeoutSeconds : Int

/-- One named transition with its optional (nilable) retry policy. The elements
of a decoded repeated field are non-nil, so a transition list is a list of
values. -/
structure StateTransition (F : Type) where
  Name : String
  RetryPolicy : Option (RetryPolicy F)

/-- The `States` message: the ordered transitions and the optional default
retry policy. -/
structure States (F : Type) where
  Transitions : List (StateTransition F)
  DefaultRetryPolicy : Option (RetryPolicy F)

end statev1

/-! ## `main.go`: validation -/

section Validate

variable {F : Type}

/-- The loop of `validateTransitions`; `seen` holds the keys of the Go map
`seen`. -/
def validateTransitionsLoop :
    List (statev1.StateTransition F) → List String → Option GoError
  | [], _ => none
  | transition :: rest, seen =>
    if transition.Name = "" then
      some (GoError.errorsNew "transition 'name' field is required")
    else if transition.Name ∈ seen then
      some (GoError.errorsNew ("duplicate transition 'name' field: " ++ transition.Name))
    else
      validateTransitionsLoop rest (transition.Name :: seen)

/-- The function `validateTransitions` of `main.go`. -/
def validateTransitions (transitions : List (statev1.StateTransition F)) : Option GoError :=
  validateTransitionsLoop transitions []

end Validate

/-! ## `main.go`: the code template -/

/-- Go's `time.Second`, in the nanoseconds of `time.Duration`. -/
def timeSecond : Int := 1000000000

namespace workflows

/-- The struct `RetryPolicy` of `workflows/workflow.go`. Durations are
`time.Duration` values (nanoseconds). -/
structure RetryPolicy (F : Type) where
  MaxAttempts : Int
  InitialRetryInterval : Int
  BackoffCoefficient : F
  MaxRetryInterval : Int
  RetryTimeout : Int
  Handle : Option (GoError → Bool)

end workflows

section Template

variable {F : Type}

/-- The function `entrypoint` of `main.go`. -/
def entrypoint (state : statev1.States F) : Option (statev1.StateTransition F) :=
  match state.Transitions with
  | [] => none
  | t :: _ => some t

/-- The template function `next` of `main.go`: `nil` when
`index >= len(state.Transitions)-1`, else `state.Transitions[index+1]`. -/
def next (index : Nat) (state : statev1.States F) : Option (statev1.StateTransition F) :=
  if (index : Int) ≥ (state.Transitions.length : Int) - 1 then none
  else state.Transitions.get? (index + 1)

/-- The `Retries` branch of the step template: the per-transition policy when it
is non-nil, else the default policy when it is non-nil, else no `Retries` field
at all. Each `...Seconds` field is emitted as `<value>*time.Second`, a constant
expression of the generated source (it does not wrap around); the template emits
no `Handle`. -/
def emitRetries (transition : statev1.StateTransition F) (state : statev1.States F) :
    Option (workflows.RetryPolicy F) :=
  match transition.RetryPolicy with
  | some p =>
    some { MaxAttempts := p.MaxAttempts
           InitialRetryInterval := p.InitialRetryIntervalSeconds * timeSecond
           BackoffCoefficient := p.BackoffCoefficient
           MaxRetryInterval := p.MaxRetryIntervalSeconds * timeSecond
           RetryTimeout := p.RetryTimeoutSeconds * timeSecond
           Handle := none }
  | none =>
    match state.DefaultRetryPolicy with
    | some p =>
      some { MaxAttempts := p.MaxAttempts
             InitialRetryInterval := p.InitialRetryIntervalSeconds * timeSecond
             BackoffCoefficient := p.BackoffCoefficient
             MaxRetryInterval := p.MaxRetryIntervalSeconds * timeSecond
             RetryTimeout := p.RetryTimeoutSeconds * timeSecond
             Handle := none }
    | none => none

/-- One emitted function `func workflowStep<Ident>(handler) *WorkflowStep`: its
identifier, the fields of the struct literal it returns, the handler method
bound to `Fn`, and the identifier of the function called for `Next` (absent when
the `with` block of the template is skipped). -/
structure StepFunc (F : Type) where
  ident : String
  Name : String
  Fn : String
  Retries : Option (workflows.RetryPolicy F)
  Next : Option String

/-- What the template emits for one machine: the step functions in transition
order and the identifier called for `Entrypoint` in the registration
constructor. Identifiers and literals are kept as values: the Go syntax of the
emitted text and `format.Source` are not part of the model. -/
structure GeneratedFile (F : Type) where
  Machine : String
  steps : List (StepFunc F)
  Entrypoint : String

/-- The body of `range $i, $transition := $state.Transitions` for one index. -/
def emitStep (camelCase : String → String) (state : statev1.States F) (i : Nat)
    (transition : statev1.StateTransition F) : StepFunc F :=
  { ident := "workflowStep" ++ camelCase transition.Name
    Name := transition.Name
    Fn := camelCase transition.Name
    Retries := emitRetries transition state
    Next := (next i state).map (fun n => "workflowStep" ++ camelCase n.Name) }

/-- The range loop over the transitions, starting at index `i`. -/
def emitStepsFrom (camelCase : String → String) (state : statev1.States F) :
    Nat → List (statev1.StateTransition F) → List (StepFunc F)
  | _, [] => []
  | i, t :: rest => emitStep camelCase state i t :: emitStepsFrom camelCase state (i + 1) rest

/-- Executing `stateTemplate` on a machine. The identifier mapping `GoCamelCase`
is a parameter. Evaluating `(entrypoint $state).Name` on the `nil` that
`entrypoint` returns for an empty list is a template execution error, which
`addPaths` turns into `log.Fatalf`. -/
def stateTemplateExecute (camelCase : String → String) (machine : String)
    (state : statev1.States F) : Except GoError (GeneratedFile F) :=
  match entrypoint state with
  | none =>
    Except.error (GoError.errorf "nil pointer evaluating %s.%s"
      ["*statev1.StateTransition", "Name"])
  | some t =>
    Except.ok { Machine := machine
                steps := emitStepsFrom camelCase state 0 state.Transitions
                Entrypoint := "workflowStep" ++ camelCase t.Name }

end Template

/-! ## `workflows/workflow.go`: steps, activities, the orchestration driver -/

namespace workflows

/-- The struct `WorkflowStep[T]`; a chain is a nilable pointer to a step, and the
handler `Fn func(io *T) error` maps the payload to the payload it leaves behind
and the error it returns. -/
inductive WorkflowStep (F T : Type) where
  | mk (Name : String) (Retries : Option (RetryPolicy F))
      (Fn : T → T × Option GoError) (Next : Option (WorkflowStep F T))

namespace WorkflowStep

variable {F T : Type}

def Name : WorkflowStep F T → String
  | mk n _ _ _ => n

def Retries : WorkflowStep F T → Option (RetryPolicy F)
  | mk _ r _ _ => r

def Fn : WorkflowStep F T → T → T × Option GoError
  | mk _ _ f _ => f

def Next : WorkflowStep F T → Option (WorkflowStep F T)
  | mk _ _ _ n => n

end WorkflowStep

/-- The engine's `task.ActivityContext`, reduced to what `GetInput` decodes. -/
structure ActivityContext (T : Type) where
  GetInput : Except GoError T

/-- The method `WorkflowStep.ToActivity`. -/
def WorkflowStep.ToActivity {F T : Type} (s : WorkflowStep F T) (ctx : ActivityContext T) :
    Except GoError T :=
  match ctx.GetInput with
  | Except.error err => Except.error err
  | Except.ok input =>
    match s.Fn input with
    | (_, some err) => Except.error err
    | (input1, none) => Except.ok input1

/-- The struct `Workflow[T]`. -/
structure Workflow (F T : Type) where
  Name : String
  Entrypoint : Option (WorkflowStep F T)

/-- The struct `NamedActivity`, with the payload type of its activity. -/
structure NamedActivity (T : Type) where
  Name : String
  Fn : ActivityContext T → Except GoError T

mutual

/-- The loop `for activity != nil` of `Workflow.Activities`. -/
def ActivitiesLoop {F T : Type} :
    Option (WorkflowStep F T) → List (NamedActivity T) → List (NamedActivity T)
  | none, activities => activities
  | some activity, activities => ActivitiesBody activity activities
termination_by structural activity => activity

/-- The body of the loop of `Workflow.Activities`: append the step's activity,
continue with `activity.Next`. -/
def ActivitiesBody {F T : Type} :
    WorkflowStep F T → List (NamedActivity T) → List (NamedActivity T)
  | WorkflowStep.mk name retries fn nxt, activities =>
    ActivitiesLoop nxt
      (activities ++ [{ Name := name, Fn := (WorkflowStep.mk name retries fn nxt).ToActivity }])
termination_by structural activity => activity

end

/-- The method `Workflow.Activities`. -/
def Workflow.Activities {F T : Type} (w : Workflow F T) : List (NamedActivity T) :=
  ActivitiesLoop w.Entrypoint []

end workflows

/-! ### The orchestration context of the engine -/

namespace task

/-- The engine's `task.RetryPolicy`, which the driver fills field by field. -/
structure RetryPolicy (F : Type) where
  MaxAttempts : Int
  InitialRetryInterval : Int
  BackoffCoefficient : F
  MaxRetryInterval : Int
  RetryTimeout : Int
  Handle : Option (GoError → Bool)

/-- One `ctx.CallActivity(name, WithActivityInput(input), ...)` issued by an
orchestration. -/
structure ActivityCall (F T : Type) where
  Name : String
  Input : T
  Policy : Option (RetryPolicy F)

/-- The engine's `task.OrchestrationContext` as the driver sees it: what
`GetInput(&input)` leaves in the fresh variable `input`; the outcome of
`CallActivity(name, WithActivityInput(input), ...).Await(&output)` for a given
activity name, input, retry policy and content of the variable `output` before
the call, which is an error or the content the call leaves in `output`; and the
log of the calls issued so far. -/
structure OrchestrationContext (F T : Type) where
  GetInput : Except GoError T
  Await : String → T → Option (RetryPolicy F) → T → Except GoError T
  calls : List (ActivityCall F T)

/-- Issue one activity call and await it into `output`: the call is logged and
its outcome returned. -/
def OrchestrationContext.CallActivity {F T : Type} (ctx : OrchestrationContext F T)
    (name : String) (input : T) (policy : Option (RetryPolicy F)) (output : T) :
    Except GoError T × OrchestrationContext F T :=
  (ctx.Await name input policy output,
    { ctx with calls := ctx.calls ++ [{ Name := name, Input := input, Policy := policy }] })

end task

namespace workflows

mutual

/-- The loop `for activity != nil` of `Workflow.ToOrchestration`, with the two
variables `input` and `output` the function declares before it; after the loop
the current `input` is returned. -/
def ToOrchestrationLoop {F T : Type} :
    Option (WorkflowStep F T) → T → T → task.OrchestrationContext F T →
      Except GoError T × task.OrchestrationContext F T
  | none, input, _, ctx => (Except.ok input, ctx)
  | some activity, input, output, ctx => ToOrchestrationBody activity input output ctx
termination_by structural activity => activity

/-- The body of the loop of `Workflow.ToOrchestration`: call the step's activity
with the step's retry policy when it has one and await it into `output`, return
the error of a failed call, and otherwise continue with `activity.Next` and
`input = output`. -/
def ToOrchestrationBody {F T : Type} :
    WorkflowStep F T → T → T → task.OrchestrationContext F T →
      Except GoError T × task.OrchestrationContext F T
  | WorkflowStep.mk name retries _ nxt, input, output, ctx =>
    let policy : Option (task.RetryPolicy F) :=
      match retries with
      | some r =>
        some { MaxAttempts := r.MaxAttempts
               InitialRetryInterval := r.InitialRetryInterval
               BackoffCoefficient := r.BackoffCoefficient
               MaxRetryInterval := r.MaxRetryInterval
               RetryTimeout := r.RetryTimeout
               Handle := r.Handle }
      | none => none
    match ctx.CallActivity name input policy output with
    | (Except.error err, ctx1) => (Except.error err, ctx1)
    | (Except.ok output1, ctx1) => ToOrchestrationLoop nxt output1 output1 ctx1
termination_by structural activity => activity

end

/-- The method `Workflow.ToOrchestration`; `zero` is the zero value of `T`, which
`var output T` holds when the loop starts. -/
def Workflow.ToOrchestration {F T : Type} (w : Workflow F T) (zero : T)
    (ctx : task.OrchestrationContext F T) :
    Except GoError T × task.OrchestrationContext F T :=
  match ctx.GetInput with
  | Except.error err => (Except.error err, ctx)
  | Except.ok input => ToOrchestrationLoop w.Entrypoint input zero ctx

mutual

/-- The steps of a chain in `Next` order. -/
def chainSteps {F T : Type} : Option (WorkflowStep F T) → List (WorkflowStep F T)
  | none => []
  | some s => chainStepsFrom s
termination_by structural chain => chain

/-- The steps of the chain that starts at a given step. -/
def chainStepsFrom {F T : Type} : WorkflowStep F T → List (WorkflowStep F T)
  | WorkflowStep.mk name retries fn nxt => WorkflowStep.mk name retries fn nxt :: chainSteps nxt
termination_by structural s => s

end

/-- The retry policy the driver attaches to a step's activity call. -/
def policyOf {F T : Type} (s : WorkflowStep F T) : Option (task.RetryPolicy F) :=
  s.Retries.map (fun r =>
    { MaxAttempts := r.MaxAttempts
      InitialRetryInterval := r.InitialRetryInterval
      BackoffCoefficient := r.BackoffCoefficient
      MaxRetryInterval := r.MaxRetryInterval
      RetryTimeout := r.RetryTimeout
      Handle := r.Handle })

/-- The activity call the driver issues for step `s` on payload `x`. -/
def callOf {F T : Type} (s : WorkflowStep F T) (x : T) : task.ActivityCall F T :=
  { Name := s.Name, Input := x, Policy := policyOf s }

/-- The driver's loop, read over the list of the chain's steps (a proof device:
`ToOrchestrationLoop_eq_loopList` shows it is the loop itself). -/
def loopList {F T : Type} :
    List (WorkflowStep F T) → T → T → task.OrchestrationContext F T →
      Except GoError T × task.OrchestrationContext F T
  | [], input, _, ctx => (Except.ok input, ctx)
  | s :: rest, input, output, ctx =>
    match ctx.Await s.Name input (policyOf s) output with
    | Except.error err => (Except.error err, { ctx with calls := ctx.calls ++ [callOf s input] })
    | Except.ok output1 =>
      loopList rest output1 output1 { ctx with calls := ctx.calls ++ [callOf s input] }

/-- The payloads the steps of a chain receive when every handler's result is
passed on: the first step receives `x`, each later step its predecessor's
output. -/
def inputsFrom {F T : Type} : List (WorkflowStep F T) → T → List T
  | [], _ => []
  | s :: rest, x => x :: inputsFrom rest (s.Fn x).1

/-- The JSON encoding of the payload type as the engine applies it:
`json.Marshal(v)`, and `json.Unmarshal(data, &v)` as a function of the data and
of the content `v` has before the call. -/
structure Codec (T J : Type) where
  Marshal : T → J
  Unmarshal : J → T → Except GoError T

/-- The engine's activity dispatch, as far as a workflow's own activities go:
the activity registered under `name` is run once; its `GetInput` decodes the
encoded input into a fresh variable (holding `zero`), and its result is encoded.
A name nobody registered is an error. -/
def runActivity {T J : Type} (codec : Codec T J) (zero : T)
    (activities : List (NamedActivity T)) (name : String) (input : J) : Except GoError J :=
  match activities.find? (fun a => a.Name = name) with
  | none => Except.error (GoError.errorf "activity %s not registered" [name])
  | some a =>
    match a.Fn { GetInput := codec.Unmarshal input zero } with
    | Except.error err => Except.error err
    | Except.ok out => Except.ok (codec.Marshal out)

/-- An orchestration context over the workflow's own activities: the
orchestration input and every activity input and result travel encoded, each
activity call runs the named activity once, and `Await(&output)` decodes the
encoded result into the variable `output` as it stands. The handlers of the
model are functions of their input, so a retried activity would fail again with
the same error; the retry policy therefore decides nothing here. -/
def engineContext {F T J : Type} (codec : Codec T J) (zero : T) (w : Workflow F T) (input : T) :
    task.OrchestrationContext F T :=
  { GetInput := codec.Unmarshal (codec.Marshal input) zero
    Await := fun name x _ output =>
      match runActivity codec zero w.Activities name (codec.Marshal x) with
      | Except.error err => Except.error err
      | Except.ok data => codec.Unmarshal data output
    calls := [] }

end workflows

/-! ## `main.go`: `addPaths` up to the template -/

section AddPaths

variable {F : Type}

/-- The first two stages of the body of `addPaths` for one machine: the
transitions are validated, then `stateTemplate` is executed; an error of either
stage ends the run (`log.Fatalf`). The stages that follow in `addPaths`,
`format.Source` on the emitted text and writing the file, and the compilation of
the generated package, are not part of this definition. -/
def addPathsExecute (camelCase : String → String) (machine : String)
    (state : statev1.States F) : Except GoError (GeneratedFile F) :=
  match validateTransitions state.Transitions with
  | some err => Except.error err
  | none => stateTemplateExecute camelCase machine state

end AddPaths

/-! ## The example: `example/gen/example/v1/example.state.go` and `example/example.go` -/

namespace examplev1

/-- The payload message of the example, with the three string fields the example
handler and its test use. -/
structure StateMachine where
  A : String
  B : String
  C : String
  deriving DecidableEq

/-- The zero value of `StateMachine`. -/
def StateMachine.zero : StateMachine := { A := "", B := "", C := "" }

/-- The JSON object of a `StateMachine`: each member is present or left out. -/
structure StateMachineJSON where
  a : Option String
  b : Option String
  c : Option String
  deriving DecidableEq

/-- How `encoding/json` treats `StateMachine`. The struct is declared in the
generated `example.pb.go`, where protoc-gen-go gives every field the tag
`omitempty`: `json.Marshal` leaves an empty string field out of the object, and
`json.Unmarshal` sets the fields the object has and leaves the others as they
are. -/
def StateMachine.codec : workflows.Codec StateMachine StateMachineJSON :=
  { Marshal := fun m =>
      { a := if m.A = "" then none else some m.A
        b := if m.B = "" then none else some m.B
        c := if m.C = "" then none else some m.C }
    Unmarshal := fun data v =>
      Except.ok { A := data.a.getD v.A, B := data.b.getD v.B, C := data.c.getD v.C } }

def StateMachineWorkflow : String := "StateMachine"

/-- The generated interface `StateMachineWorkflowHandler`. -/
structure StateMachineWorkflowHandler where
  Foo : StateMachine → StateMachine × Option GoError
  Bar : StateMachine → StateMachine × Option GoError
  Baz : StateMachine → StateMachine × Option GoError

def workflowStepBaz (handler : StateMachineWorkflowHandler) :
    workflows.WorkflowStep ℚ StateMachine :=
  workflows.WorkflowStep.mk "baz"
    (some { MaxAttempts := 5
            InitialRetryInterval := 1 * timeSecond
            BackoffCoefficient := 2
            MaxRetryInterval := 10 * timeSecond
            RetryTimeout := 60 * timeSecond
            Handle := none })
    handler.Baz none

def workflowStepBar (handler : StateMachineWorkflowHandler) :
    workflows.WorkflowStep ℚ StateMachine :=
  workflows.WorkflowStep.mk "bar"
    (some { MaxAttempts := 5
            InitialRetryInterval := 1 * timeSecond
            BackoffCoefficient := 2
            MaxRetryInterval := 10 * timeSecond
            RetryTimeout := 60 * timeSecond
            Handle := none })
    handler.Bar (some (workflowStepBaz handler))

def workflowStepFoo (handler : StateMachineWorkflowHandler) :
    workflows.WorkflowStep ℚ StateMachine :=
  workflows.WorkflowStep.mk "foo"
    (some { MaxAttempts := 5
            InitialRetryInterval := 1 * timeSecond
            BackoffCoefficient := 2
            MaxRetryInterval := 10 * timeSecond
            RetryTimeout := 60 * timeSecond
            Handle := none })
    handler.Foo (some (workflowStepBar handler))

/-- The workflow passed to `NewRegistration` by
`NewStateMachineWorkflowRegistration`. -/
def stateMachineWorkflow (handler : StateMachineWorkflowHandler) :
    workflows.Workflow ℚ StateMachine :=
  { Name := StateMachineWorkflow, Entrypoint := some (workflowStepFoo handler) }

end examplev1

/-- A machine description from which the template emits the three step
functions of `example.state.go`: transitions `foo`, `bar`, `baz` and the default
policy 5 / 1s / 2 / 10s / 60s. -/
def exampleStates : statev1.States ℚ :=
  { Transitions := [{ Name := "foo", RetryPolicy := none }, { Name := "bar", RetryPolicy := none },
      { Name := "baz", RetryPolicy := none }]
    DefaultRetryPolicy := some { MaxAttempts := 5
                                 InitialRetryIntervalSeconds := 1
                                 BackoffCoefficient := 2
                                 MaxRetryIntervalSeconds := 10
                                 RetryTimeoutSeconds := 60 } }

namespace examplepkg

/-- The function `padAndAdd` of `example/example.go`. -/
def padAndAdd (v add : String) : String :=
  if v ≠ "" then v ++ " " ++ add else add

/-- The handler `ExampleWorkflowHandler` of `example/example.go`. -/
def ExampleWorkflowHandler : examplev1.StateMachineWorkflowHandler :=
  { Foo := fun machine => ({ machine with A := padAndAdd machine.A "Foo" }, none)
    Bar := fun machine => ({ machine with B := padAndAdd machine.B "Bar" }, none)
    Baz := fun machine => ({ machine with C := padAndAdd machine.C "Baz" }, none) }

end examplepkg

/-! ## `workflows/workflow.go`: registrations and the processor -/

/-- A Go interface value (`any`) over a universe `U` of Go types with values
`El`: `nil`, or a dynamic type with a value of it. -/
def GoAny {U : Type} (El : U → Type) : Type := Option (Sigma El)

/-- The type assertion `x.(T)` with the comma-ok form, for a non-interface type
`T`: it succeeds exactly when the dynamic type of `x` is `T`. -/
def typeAssert {U : Type} [DecidableEq U] {El : U → Type} (x : GoAny El) (T : U) :
    Option (El T) :=
  match x with
  | none => none
  | some ⟨u, v⟩ => if h : u = T then some (h ▸ v) else none

namespace backend

/-- A call of `ScheduleNewOrchestration(ctx, name, api.WithInput(input))`. -/
structure ScheduleCall {U : Type} (El : U → Type) where
  orchestrator : String
  input : GoAny El

/-- The engine's `TaskHubClient`: the scheduling calls it has received and the
engine's answer (instance id or error) to a call, given the earlier calls. -/
structure TaskHubClient {U : Type} (El : U → Type) where
  scheduled : List (ScheduleCall El)
  reply : List (ScheduleCall El) → ScheduleCall El → Except GoError String

/-- One scheduling call: logged, and answered by the engine. -/
def TaskHubClient.ScheduleNewOrchestration {U : Type} {El : U → Type} (client : TaskHubClient El)
    (name : String) (input : GoAny El) : Except GoError String × TaskHubClient El :=
  (client.reply client.scheduled { orchestrator := name, input := input },
    { client with scheduled := client.scheduled ++ [{ orchestrator := name, input := input }] })

/-- The lifecycle calls the processor makes into the engine. -/
inductive EngineCall where
  | backendStart
  | workerStart
  | backendStop
  | workerShutdown
  deriving DecidableEq

/-- The engine's `TaskHubWorker`: the outcome of `Start` and of `Shutdown`, given
the lifecycle calls made before. -/
structure TaskHubWorker where
  Start : List EngineCall → Option GoError
  Shutdown : List EngineCall → Option GoError

/-- The engine's `Backend`: the outcome of `Start` and `Stop` given the lifecycle
calls made before, its answers to scheduling calls, and the worker that
`NewTaskHubWorker` builds on it. -/
structure Backend {U : Type} (El : U → Type) where
  Start : List EngineCall → Option GoError
  Stop : List EngineCall → Option GoError
  schedule : List (ScheduleCall El) → ScheduleCall El → Except GoError String
  NewTaskHubWorker : TaskHubWorker

/-- The engine's `NewTaskHubClient(be)`. -/
def NewTaskHubClient {U : Type} {El : U → Type} (be : Backend El) : TaskHubClient El :=
  { scheduled := [], reply := be.schedule }

/-- The engine's `Logger` values; logging itself is not modelled. -/
inductive Logger where
  | noopLogger
  | other (id : Nat)

end backend

namespace workflows

/-- The struct `Future`: the instance id. The client it refers to is the
processor's client, which the model threads as state. -/
structure Future where
  id : String
  deriving DecidableEq

section Processor

variable {U : Type} [DecidableEq U] {El : U → Type}

/-- The type `WorkflowFn`: the client is passed in and handed back with its log. -/
def WorkflowFn (El : U → Type) : Type :=
  backend.TaskHubClient El → List (GoAny El) → Except GoError Future × backend.TaskHubClient El

/-- The struct `Registration`. The orchestrator and the activities carry their
payload type, which Go erases to `any`. -/
structure Registration (F : Type) (El : U → Type) where
  name : String
  workflow : WorkflowFn El
  orchestration : Σ T : U, (task.OrchestrationContext F (El T) →
    Except GoError (El T) × task.OrchestrationContext F (El T))
  activities : List (Σ T : U, NamedActivity (El T))

/-- The function `NewRegistration[T]`; `zero T` is the zero value of `T` that
`var input T` holds. -/
def NewRegistration {F : Type} (zero : (u : U) → El u) (T : U) (w : Workflow F (El T)) :
    Registration F El :=
  { name := w.Name
    workflow := fun client inputs =>
      if inputs.length > 1 then
        (Except.error (GoError.errorsNew "cannot pass more than a single input"), client)
      else
        let checked : Except GoError (El T) :=
          match inputs with
          | [] => Except.ok (zero T)
          | x :: _ =>
            match typeAssert x T with
            | none =>
              Except.error (GoError.errorsNew "input type does not match workflow input type")
            | some cast => Except.ok cast
        match checked with
        | Except.error err => (Except.error err, client)
        | Except.ok input =>
          match client.ScheduleNewOrchestration w.Name (some ⟨T, input⟩) with
          | (Except.error err, client1) => (Except.error err, client1)
          | (Except.ok id, client1) => (Except.ok { id := id }, client1)
    orchestration := ⟨T, w.ToOrchestration (zero T)⟩
    activities := w.Activities.map (fun a => ⟨T, a⟩) }

/-- The struct `WorkflowProcessor`: backend, client, the nilable worker, the
`workflows` map, and the log of lifecycle calls made into the engine. The task
registry, executor and logger are used by the engine only. -/
structure WorkflowProcessor (F : Type) (El : U → Type) where
  backend : backend.Backend El
  client : ProtocStates.backend.TaskHubClient El
  worker : Option ProtocStates.backend.TaskHubWorker
  workflows : String → Option (Registration F El)
  calls : List ProtocStates.backend.EngineCall

/-- The struct `WorkflowProcessorBuilder`. -/
structure WorkflowProcessorBuilder (F : Type) (El : U → Type) where
  factory : backend.Logger → backend.Backend El
  logger : backend.Logger
  registrations : List (Registration F El)

/-- The function `NewWorkflowProcessorBuilder`; the default in-memory backend
factory of `backend.go` is a parameter. -/
def NewWorkflowProcessorBuilder {F : Type} (NewMemoryBackend : backend.Logger → backend.Backend El) :
    WorkflowProcessorBuilder F El :=
  { factory := NewMemoryBackend, logger := backend.Logger.noopLogger, registrations := [] }

/-- The method `WorkflowProcessorBuilder.Register`. -/
def WorkflowProcessorBuilder.Register {F : Type} (b : WorkflowProcessorBuilder F El)
    (registrations : List (Registration F El)) : WorkflowProcessorBuilder F El :=
  { b with registrations := b.registrations ++ registrations }

/-- The `for _, registration := range b.registrations` loop of `Build`, as far
as the `workflows` map goes: `workflows[registration.name] = registration`. -/
def buildWorkflows {F : Type} :
    List (Registration F El) → (String → Option (Registration F El)) →
      String → Option (Registration F El)
  | [], workflows => workflows
  | registration :: rest, workflows =>
    buildWorkflows rest
      (fun k => if k = registration.name then some registration else workflows k)

/-- The method `WorkflowProcessorBuilder.Build`. -/
def WorkflowProcessorBuilder.Build {F : Type} (b : WorkflowProcessorBuilder F El) :
    WorkflowProcessor F El :=
  let be := b.factory b.logger
  { backend := be
    client := backend.NewTaskHubClient be
    worker := none
    workflows := buildWorkflows b.registrations (fun _ => none)
    calls := [] }

/-- The method `WorkflowProcessor.Start`. -/
def WorkflowProcessor.Start {F : Type} (p : WorkflowProcessor F El) :
    Option GoError × WorkflowProcessor F El :=
  match p.backend.Start p.calls with
  | some err => (some err, { p with calls := p.calls ++ [backend.EngineCall.backendStart] })
  | none =>
    let worker := p.backend.NewTaskHubWorker
    (worker.Start (p.calls ++ [backend.EngineCall.backendStart]),
      { p with
        worker := some worker
        calls := p.calls ++ [backend.EngineCall.backendStart, backend.EngineCall.workerStart] })

/-- The method `WorkflowProcessor.RunWorkflow`. -/
def WorkflowProcessor.RunWorkflow {F : Type} (p : WorkflowProcessor F El) (name : String)
    (inputs : List (GoAny El)) : Except GoError Future × WorkflowProcessor F El :=
  match p.workflows name with
  | none => (Except.error (GoError.errorf "workflow %q not registered" [name]), p)
  | some reg =>
    match reg.workflow p.client inputs with
    | (result, client1) => (result, { p with client := client1 })

/-- The method `WorkflowProcessor.Shutdown`. -/
def WorkflowProcessor.Shutdown {F : Type} (p : WorkflowProcessor F El) :
    Option GoError × WorkflowProcessor F El :=
  let err := p.backend.Stop p.calls
  match p.worker with
  | some worker =>
    (errorsJoin [err, worker.Shutdown (p.calls ++ [backend.EngineCall.backendStop])],
      { p with
        calls := p.calls ++ [backend.EngineCall.backendStop, backend.EngineCall.workerShutdown] })
  | none => (err, { p with calls := p.calls ++ [backend.EngineCall.backendStop] })

end Processor

end workflows

/-! ## A concrete engine and processor for the example -/

namespace examplepkg

/-- A handler whose `Bar` method fails. -/
def failingBarHandler : examplev1.StateMachineWorkflowHandler :=
  { Foo := ExampleWorkflowHandler.Foo
    Bar := fun machine => (machine, some (GoError.errorsNew "bar failed"))
    Baz := ExampleWorkflowHandler.Baz }

/-- A handler whose `Foo` sets the field `A` and whose `Bar` resets it to the
empty string. -/
def resettingHandler : examplev1.StateMachineWorkflowHandler :=
  { Foo := fun machine => ({ machine with A := "x" }, none)
    Bar := fun machine => ({ machine with A := "" }, none)
    Baz := fun machine => (machine, none) }

/-- Two Go types for the example: the payload message and `string`. -/
inductive ExampleType where
  | stateMachine
  | string
  deriving DecidableEq

/-- The values of the example types. -/
def ExampleEl : ExampleType → Type
  | ExampleType.stateMachine => examplev1.StateMachine
  | ExampleType.string => String

/-- The zero values of the example types. -/
def exampleZero : (u : ExampleType) → ExampleEl u
  | ExampleType.stateMachine => examplev1.StateMachine.zero
  | ExampleType.string => ""

/-- A backend whose calls all succeed; the instance id it hands out names the
orchestrator. -/
def exampleBackend : backend.Backend ExampleEl :=
  { Start := fun _ => none
    Stop := fun _ => none
    schedule := fun _ call => Except.ok ("instance-of-" ++ call.orchestrator)
    NewTaskHubWorker := { Start := fun _ => none, Shutdown := fun _ => none } }

/-- The registration of the example, as `NewStateMachineWorkflowRegistration`
builds it. -/
def exampleRegistration (handler : examplev1.StateMachineWorkflowHandler) :
    workflows.Registration ℚ ExampleEl :=
  workflows.NewRegistration exampleZero ExampleType.stateMachine
    (examplev1.stateMachineWorkflow handler)

/-- A builder on which the example workflow was registered twice, with two
different handlers. -/
def exampleBuilder : workflows.WorkflowProcessorBuilder ℚ ExampleEl :=
  ((workflows.NewWorkflowProcessorBuilder (fun _ => exampleBackend)).Register
    [exampleRegistration ExampleWorkflowHandler]).Register
    [exampleRegistration failingBarHandler]

end examplepkg

/-! ## Lemmas on validation -/

section ValidateLemmas

variable {F : Type}

theorem validateTransitionsLoop_eq_none_iff (ts : List (statev1.StateTransition F))
    (seen : List String) :
    validateTransitionsLoop ts seen = none ↔
      (∀ t ∈ ts, t.Name ≠ "") ∧ (∀ t ∈ ts, t.Name ∉ seen) ∧
        (ts.map (fun t => t.Name)).Nodup := by
  induction ts generalizing seen with
  | nil => simp [validateTransitionsLoop]
  | cons t rest ih =>
    unfold validateTransitionsLoop
    by_cases h1 : t.Name = ""
    · simp [h1]
    · by_cases h2 : t.Name ∈ seen
      · simp [h1, h2]
      · simp only [h1, h2, if_false, ih, List.mem_cons, List.map_cons, List.nodup_cons,
          List.mem_map, not_exists, not_and, not_or]
        constructor
        · rintro ⟨ha, hb, hc⟩
          refine ⟨?_, ?_, ?_, hc⟩
          · rintro u (rfl | hu)
            · exact h1
            · exact ha u hu
          · rintro u (rfl | hu)
            · exact h2
            · exact (hb u hu).2
          · intro u hu heq
            exact (hb u hu).1 heq
        · rintro ⟨ha, hb, hc, hd⟩
          refine ⟨fun u hu => ha u (Or.inr hu), fun u hu => ⟨fun heq => hc u hu heq, ?_⟩, hd⟩
          exact hb u (Or.inr hu)

theorem validateTransitions_eq_none_iff (ts : List (statev1.StateTransition F)) :
    validateTransitions ts = none ↔
      (∀ t ∈ ts, t.Name ≠ "") ∧ (ts.map (fun t => t.Name)).Nodup := by
  unfold validateTransitions
  rw [validateTransitionsLoop_eq_none_iff]
  simp

/-- A list has a repeated element exactly when two different positions hold the
same value. -/
theorem not_nodup_iff_two_positions (l : List String) :
    ¬ l.Nodup ↔ ∃ i j : Fin l.length, i ≠ j ∧ l.get i = l.get j := by
  rw [List.nodup_iff_injective_get]
  unfold Function.Injective
  push_neg
  constructor
  · rintro ⟨i, j, h, hne⟩
    exact ⟨i, j, hne, h⟩
  · rintro ⟨i, j, hne, h⟩
    exact ⟨i, j, h, hne⟩

end ValidateLemmas

/-! ## Claims about validation -/

section ValidateClaims

variable {F : Type}

/-- C1: `validateTransitions` returns an error if and only if some transition has
an empty name or some name occurs at two different positions of the list; in
every other case it returns `nil`. -/
theorem validateTransitions_error_iff (ts : List (statev1.StateTransition F)) :
    (validateTransitions ts ≠ none ↔
      ((∃ t ∈ ts, t.Name = "") ∨
        ∃ i j : Fin ts.length, i ≠ j ∧ (ts.get i).Name = (ts.get j).Name)) ∧
    (validateTransitions ts = none ↔
      ¬ ((∃ t ∈ ts, t.Name = "") ∨
        ∃ i j : Fin ts.length, i ≠ j ∧ (ts.get i).Name = (ts.get j).Name)) := by
  have key : validateTransitions ts = none ↔
      ¬ ((∃ t ∈ ts, t.Name = "") ∨
        ∃ i j : Fin ts.length, i ≠ j ∧ (ts.get i).Name = (ts.get j).Name) := by
    rw [validateTransitions_eq_none_iff, not_or]
    apply and_congr
    · simp
    · rw [← not_iff_not, not_not, not_nodup_iff_two_positions]
      constructor
      · rintro ⟨i, j, hne, h⟩
        refine ⟨⟨i.1, by simpa using i.2⟩, ⟨j.1, by simpa using j.2⟩, ?_, ?_⟩
        · intro heq
          apply hne
          ext
          simpa using congrArg Fin.val heq
        · simpa using h
      · rintro ⟨i, j, hne, h⟩
        refine ⟨⟨i.1, by simp⟩, ⟨j.1, by simp⟩, ?_, ?_⟩
        · intro heq
          apply hne
          ext
          simpa using congrArg Fin.val heq
        · simpa using h
  refine ⟨?_, key⟩
  rw [← not_iff_not, not_not]
  exact key

end ValidateClaims

/-! ## Lemmas on the code template -/

section TemplateLemmas

variable {F : Type}

theorem next_eq_get? (index : Nat) (state : statev1.States F) :
    next index state = state.Transitions.get? (index + 1) := by
  unfold next
  split
  · rename_i h
    symm
    apply List.get?_eq_none.mpr
    omega
  · rfl

theorem emitStepsFrom_get? (camelCase : String → String) (state : statev1.States F)
    (l : List (statev1.StateTransition F)) :
    ∀ i j, (emitStepsFrom camelCase state i l)[j]? =
      (l[j]?).map (emitStep camelCase state (i + j)) := by
  induction l with
  | nil => intro i j; simp [emitStepsFrom]
  | cons t rest ih =>
    intro i j
    cases j with
    | zero => simp [emitStepsFrom]
    | succ k =>
      simp only [emitStepsFrom, List.getElem?_cons_succ, ih (i + 1) k]
      rw [show i + 1 + k = i + (k + 1) by omega]

theorem emitStepsFrom_length (camelCase : String → String) (state : statev1.States F)
    (l : List (statev1.StateTransition F)) :
    ∀ i, (emitStepsFrom camelCase state i l).length = l.length := by
  induction l with
  | nil => intro i; simp [emitStepsFrom]
  | cons t rest ih => intro i; simp [emitStepsFrom, ih (i + 1)]

theorem addPathsExecute_of_valid (camelCase : String → String) (machine : String)
    (state : statev1.States F) (t0 : statev1.StateTransition F)
    (rest : List (statev1.StateTransition F)) (hts : state.Transitions = t0 :: rest)
    (hvalid : validateTransitions state.Transitions = none) :
    addPathsExecute camelCase machine state =
      Except.ok { Machine := machine
                  steps := emitStepsFrom camelCase state 0 state.Transitions
                  Entrypoint := "workflowStep" ++ camelCase t0.Name } := by
  unfold addPathsExecute
  rw [hvalid]
  simp [stateTemplateExecute, entrypoint, hts]

end TemplateLemmas

/-! ## Lemmas on the orchestration driver -/

section DriverLemmas

variable {F T J : Type}

open workflows

theorem chainSteps_some (name : String) (retries : Option (RetryPolicy F))
    (fn : T → T × Option GoError) (nxt : Option (WorkflowStep F T)) :
    chainSteps (some (WorkflowStep.mk name retries fn nxt)) =
      WorkflowStep.mk name retries fn nxt :: chainSteps nxt := by
  simp [chainSteps, chainStepsFrom]

theorem ToOrchestrationBody_eq_loopList :
    ∀ (s : WorkflowStep F T) (input output : T) (ctx : task.OrchestrationContext F T),
      ToOrchestrationBody s input output ctx = loopList (chainSteps (some s)) input output ctx
  | WorkflowStep.mk name retries fn nxt, input, output, ctx => by
    have ih : ∀ (y o : T) (c : task.OrchestrationContext F T),
        ToOrchestrationLoop nxt y o c = loopList (chainSteps nxt) y o c := by
      intro y o c
      match nxt with
      | none => simp [ToOrchestrationLoop, chainSteps, loopList]
      | some s1 =>
        have := ToOrchestrationBody_eq_loopList s1 y o c
        simpa [ToOrchestrationLoop] using this
    rw [chainSteps_some]
    cases retries with
    | none =>
      cases h : ctx.Await name input none output with
      | error err =>
        simp [ToOrchestrationBody, loopList, task.OrchestrationContext.CallActivity,
          WorkflowStep.Name, policyOf, WorkflowStep.Retries, callOf, h]
      | ok out =>
        simp [ToOrchestrationBody, loopList, task.OrchestrationContext.CallActivity,
          WorkflowStep.Name, policyOf, WorkflowStep.Retries, callOf, h, ih]
    | some r =>
      cases h : ctx.Await name input (policyOf (WorkflowStep.mk name (some r) fn nxt)) output with
      | error err =>
        simp only [policyOf, WorkflowStep.Retries, Option.map_some'] at h
        simp [ToOrchestrationBody, loopList, task.OrchestrationContext.CallActivity,
          WorkflowStep.Name, policyOf, WorkflowStep.Retries, callOf, h]
      | ok out =>
        simp only [policyOf, WorkflowStep.Retries, Option.map_some'] at h
        simp [ToOrchestrationBody, loopList, task.OrchestrationContext.CallActivity,
          WorkflowStep.Name, policyOf, WorkflowStep.Retries, callOf, h, ih]

theorem ToOrchestrationLoop_eq_loopList (chain : Option (WorkflowStep F T)) (input output : T)
    (ctx : task.OrchestrationContext F T) :
    ToOrchestrationLoop chain input output ctx =
      loopList (chainSteps chain) input output ctx := by
  cases chain with
  | none => simp [ToOrchestrationLoop, chainSteps, loopList]
  | some s => simpa [ToOrchestrationLoop] using ToOrchestrationBody_eq_loopList s input output ctx

theorem loopList_first_failure (steps : List (WorkflowStep F T)) :
    ∀ (x o : T) (outs : List T) (ctx : task.OrchestrationContext F T) (e : GoError)
      (hk : outs.length < steps.length),
      (∀ i (hi : i < outs.length),
        ctx.Await (steps.get ⟨i, by omega⟩).Name ((x :: outs).get ⟨i, by simp; omega⟩)
          (policyOf (steps.get ⟨i, by omega⟩)) ((o :: outs).get ⟨i, by simp; omega⟩) =
            Except.ok (outs.get ⟨i, hi⟩)) →
      ctx.Await (steps.get ⟨outs.length, hk⟩).Name ((x :: outs).get ⟨outs.length, by simp⟩)
          (policyOf (steps.get ⟨outs.length, hk⟩)) ((o :: outs).get ⟨outs.length, by simp⟩) =
            Except.error e →
      loopList steps x o ctx =
        (Except.error e, { ctx with calls := ctx.calls ++ List.zipWith callOf steps (x :: outs) }) := by
  induction steps with
  | nil => intro x o outs ctx e hk; simp at hk
  | cons s rest ih =>
    intro x o outs ctx e hk hok hfail
    cases outs with
    | nil =>
      simp only [List.length_nil, List.get_eq_getElem, List.getElem_cons_zero] at hfail
      simp [loopList, hfail]
    | cons y outs1 =>
      have h0 := hok 0 (by simp)
      simp only [List.get_eq_getElem, List.getElem_cons_zero] at h0
      have hk1 : outs1.length < rest.length := by simpa using hk
      have := ih y y outs1 { ctx with calls := ctx.calls ++ [callOf s x] } e hk1
        (by
          intro i hi
          have := hok (i + 1) (by simpa using hi)
          simpa using this)
        (by simpa using hfail)
      simp [loopList, h0, this]

theorem ActivitiesBody_eq :
    ∀ (s : WorkflowStep F T) (acc : List (NamedActivity T)),
      ActivitiesBody s acc =
        acc ++ (chainSteps (some s)).map (fun s => { Name := s.Name, Fn := s.ToActivity })
  | WorkflowStep.mk name retries fn nxt, acc => by
    rw [chainSteps_some]
    match nxt with
    | none => simp [ActivitiesBody, ActivitiesLoop, chainSteps, WorkflowStep.Name]
    | some s1 =>
      have := ActivitiesBody_eq s1
      simp [ActivitiesBody, ActivitiesLoop, this, WorkflowStep.Name]

theorem ActivitiesLoop_eq (chain : Option (WorkflowStep F T)) (acc : List (NamedActivity T)) :
    ActivitiesLoop chain acc =
      acc ++ (chainSteps chain).map (fun s => { Name := s.Name, Fn := s.ToActivity }) := by
  cases chain with
  | none => simp [ActivitiesLoop, chainSteps]
  | some s => simpa [ActivitiesLoop] using ActivitiesBody_eq s acc

theorem Activities_eq (w : Workflow F T) :
    w.Activities =
      (chainSteps w.Entrypoint).map (fun s => { Name := s.Name, Fn := s.ToActivity }) := by
  simp [Workflow.Activities, ActivitiesLoop_eq]

theorem find_activity_of_nodup (steps : List (WorkflowStep F T)) (s : WorkflowStep F T)
    (hs : s ∈ steps) (hnd : (steps.map (fun s => s.Name)).Nodup) :
    (steps.map (fun s => ({ Name := s.Name, Fn := s.ToActivity } : NamedActivity T))).find?
        (fun a => a.Name = s.Name) =
      some { Name := s.Name, Fn := s.ToActivity } := by
  induction steps with
  | nil => simp at hs
  | cons t rest ih =>
    simp only [List.map_cons, List.nodup_cons, List.mem_map, not_exists, not_and] at hnd
    rcases List.mem_cons.mp hs with rfl | hmem
    · simp
    · have hne : t.Name ≠ s.Name := fun h => hnd.1 s hmem h.symm
      simp [List.find?_cons, hne, ih hmem hnd.2]

theorem runActivity_of_nodup (codec : Codec T J) (zero : T)
    (hcodec : ∀ y o, codec.Unmarshal (codec.Marshal y) o = Except.ok y)
    (w : Workflow F T) (s : WorkflowStep F T)
    (hs : s ∈ chainSteps w.Entrypoint)
    (hnd : ((chainSteps w.Entrypoint).map (fun s => s.Name)).Nodup)
    (hok : ∀ x, (s.Fn x).2 = none) (x : T) :
    runActivity codec zero w.Activities s.Name (codec.Marshal x) =
      Except.ok (codec.Marshal (s.Fn x).1) := by
  unfold runActivity
  rw [Activities_eq, find_activity_of_nodup _ s hs hnd]
  simp only [WorkflowStep.ToActivity, hcodec]
  have := hok x
  cases hfx : s.Fn x with
  | mk a b =>
    rw [hfx] at this
    simp only at this
    subst this
    rfl

theorem loopList_of_handlers (steps : List (WorkflowStep F T)) :
    ∀ (x o : T) (ctx : task.OrchestrationContext F T),
      (∀ s ∈ steps, ∀ y o1, ctx.Await s.Name y (policyOf s) o1 = Except.ok (s.Fn y).1) →
      loopList steps x o ctx =
        (Except.ok (steps.foldl (fun y s => (s.Fn y).1) x),
          { ctx with calls := ctx.calls ++ List.zipWith callOf steps (inputsFrom steps x) }) := by
  induction steps with
  | nil => intro x o ctx _; simp [loopList, inputsFrom]
  | cons s rest ih =>
    intro x o ctx h
    have h0 := h s (List.mem_cons_self _ _) x o
    have := ih (s.Fn x).1 (s.Fn x).1 { ctx with calls := ctx.calls ++ [callOf s x] }
      (fun t ht y o1 => h t (List.mem_cons_of_mem _ ht) y o1)
    simp [loopList, h0, this, inputsFrom]

theorem inputsFrom_length (steps : List (WorkflowStep F T)) :
    ∀ x : T, (inputsFrom steps x).length = steps.length := by
  induction steps with
  | nil => intro x; rfl
  | cons s rest ih => intro x; simp [inputsFrom, ih]

theorem zipWith_callOf_names (steps : List (WorkflowStep F T)) (xs : List T)
    (h : xs.length = steps.length) :
    (List.zipWith callOf steps xs).map (fun c => c.Name) = steps.map (fun s => s.Name) := by
  induction steps generalizing xs with
  | nil => simp
  | cons s rest ih =>
    cases xs with
    | nil => simp at h
    | cons x xs1 =>
      have h1 : xs1.length = rest.length := by simpa using h
      simp [callOf, ih xs1 h1]

theorem zipWith_callOf_inputs (steps : List (WorkflowStep F T)) (xs : List T)
    (h : xs.length = steps.length) :
    (List.zipWith callOf steps xs).map (fun c => c.Input) = xs := by
  induction steps generalizing xs with
  | nil =>
    have : xs = [] := List.length_eq_zero.mp (by simpa using h)
    simp [this]
  | cons s rest ih =>
    cases xs with
    | nil => simp at h
    | cons x xs1 =>
      have h1 : xs1.length = rest.length := by simpa using h
      simp [callOf, ih xs1 h1]

theorem zipWith_take_length (steps : List (WorkflowStep F T)) (xs : List T) :
    List.zipWith callOf (steps.take xs.length) xs = List.zipWith callOf steps xs := by
  induction steps generalizing xs with
  | nil => simp
  | cons s rest ih =>
    cases xs with
    | nil => simp
    | cons x xs1 => simp [ih xs1]

theorem example_chainSteps (handler : examplev1.StateMachineWorkflowHandler) :
    chainSteps (examplev1.stateMachineWorkflow handler).Entrypoint =
      [examplev1.workflowStepFoo handler, examplev1.workflowStepBar handler,
        examplev1.workflowStepBaz handler] := by
  rfl

/-- With an encoding that decodes every encoded payload back in full, whatever
the variable held before, the driver on a chain with distinct names and
succeeding handlers returns the composition of the handlers, and its activity
calls are the steps once each in chain order, each on its predecessor's
output. -/
theorem ToOrchestration_of_lossless_codec (codec : Codec T J) (zero : T)
    (hcodec : ∀ y o, codec.Unmarshal (codec.Marshal y) o = Except.ok y)
    (w : Workflow F T) (p : T)
    (hnd : ((chainSteps w.Entrypoint).map (fun s => s.Name)).Nodup)
    (hok : ∀ s ∈ chainSteps w.Entrypoint, ∀ x, (s.Fn x).2 = none) :
    (w.ToOrchestration zero (engineContext codec zero w p)).1 =
        Except.ok ((chainSteps w.Entrypoint).foldl (fun y s => (s.Fn y).1) p) ∧
      (w.ToOrchestration zero (engineContext codec zero w p)).2.calls.map (fun c => c.Name) =
        (chainSteps w.Entrypoint).map (fun s => s.Name) ∧
      (w.ToOrchestration zero (engineContext codec zero w p)).2.calls.map (fun c => c.Input) =
        inputsFrom (chainSteps w.Entrypoint) p := by
  have h := loopList_of_handlers (chainSteps w.Entrypoint) p zero (engineContext codec zero w p)
    (fun s hs y o1 => by
      simp only [engineContext, runActivity_of_nodup codec zero hcodec w s hs hnd (hok s hs) y,
        hcodec])
  have hin : (engineContext codec zero w p).GetInput = Except.ok p := hcodec p zero
  have hrun : w.ToOrchestration zero (engineContext codec zero w p) =
      loopList (chainSteps w.Entrypoint) p zero (engineContext codec zero w p) := by
    unfold Workflow.ToOrchestration
    rw [hin]
    simp only [ToOrchestrationLoop_eq_loopList]
  rw [hrun, h]
  have hcalls : (engineContext codec zero w p).calls = [] := rfl
  rw [hcalls, List.nil_append]
  refine ⟨rfl, ?_, ?_⟩
  · exact zipWith_callOf_names _ _ (inputsFrom_length _ _)
  · exact zipWith_callOf_inputs _ _ (inputsFrom_length _ _)

/-- The first run of `TestExample`: input `A, B, C`. -/
theorem example_run_ABC :
    ((examplev1.stateMachineWorkflow examplepkg.ExampleWorkflowHandler).ToOrchestration
        examplev1.StateMachine.zero
        (engineContext examplev1.StateMachine.codec examplev1.StateMachine.zero
          (examplev1.stateMachineWorkflow examplepkg.ExampleWorkflowHandler)
          { A := "A", B := "B", C := "C" })).1 =
      Except.ok { A := "A Foo", B := "B Bar", C := "C Baz" } := by
  rfl

/-- The second run of `TestExample`: no input, hence the zero payload. -/
theorem example_run_zero :
    ((examplev1.stateMachineWorkflow examplepkg.ExampleWorkflowHandler).ToOrchestration
        examplev1.StateMachine.zero
        (engineContext examplev1.StateMachine.codec examplev1.StateMachine.zero
          (examplev1.stateMachineWorkflow examplepkg.ExampleWorkflowHandler)
          examplev1.StateMachine.zero)).1 =
      Except.ok { A := "Foo", B := "Bar", C := "Baz" } := by
  rfl

end DriverLemmas

/-! ## Claims about the code template -/

section TemplateClaims

variable {F : Type}

/-- C4: for every machine and every transition `t` of it (at position `i`), the
template runs and the step function it emits at position `i` carries `t`'s name
and a retry policy that is `t`'s own policy when `t` has one (all five numeric
fields from `t`'s policy, the seconds fields times `time.Second`), else the
machine's default policy when there is one, else no retry policy at all. -/
theorem emitted_retry_policy (camelCase : String → String) (machine : String)
    (state : statev1.States F) (i : Nat) (t : statev1.StateTransition F)
    (ht : state.Transitions[i]? = some t) :
    ∃ file f, stateTemplateExecute camelCase machine state = Except.ok file ∧
      file.steps[i]? = some f ∧ f.Name = t.Name ∧
      (∀ p, t.RetryPolicy = some p →
        ∃ r, f.Retries = some r ∧ r.MaxAttempts = p.MaxAttempts ∧
          r.InitialRetryInterval = p.InitialRetryIntervalSeconds * timeSecond ∧
          r.BackoffCoefficient = p.BackoffCoefficient ∧
          r.MaxRetryInterval = p.MaxRetryIntervalSeconds * timeSecond ∧
          r.RetryTimeout = p.RetryTimeoutSeconds * timeSecond) ∧
      (t.RetryPolicy = none → ∀ d, state.DefaultRetryPolicy = some d →
        ∃ r, f.Retries = some r ∧ r.MaxAttempts = d.MaxAttempts ∧
          r.InitialRetryInterval = d.InitialRetryIntervalSeconds * timeSecond ∧
          r.BackoffCoefficient = d.BackoffCoefficient ∧
          r.MaxRetryInterval = d.MaxRetryIntervalSeconds * timeSecond ∧
          r.RetryTimeout = d.RetryTimeoutSeconds * timeSecond) ∧
      (t.RetryPolicy = none → state.DefaultRetryPolicy = none → f.Retries = none) := by
  have hne : ∃ t0 rest, state.Transitions = t0 :: rest := by
    cases hts : state.Transitions with
    | nil => rw [hts] at ht; simp at ht
    | cons t0 rest => exact ⟨t0, rest, rfl⟩
  obtain ⟨t0, rest, hts⟩ := hne
  refine ⟨{ Machine := machine
            steps := emitStepsFrom camelCase state 0 state.Transitions
            Entrypoint := "workflowStep" ++ camelCase t0.Name },
    emitStep camelCase state i t, ?_, ?_, rfl, ?_, ?_, ?_⟩
  · simp [stateTemplateExecute, entrypoint, hts]
  · simp only [emitStepsFrom_get?, ht, Option.map_some', Nat.zero_add]
  · intro p hp
    simp [emitStep, emitRetries, hp]
  · intro hnone d hd
    simp [emitStep, emitRetries, hnone, hd]
  · intro hnone hd
    simp [emitStep, emitRetries, hnone, hd]

/-- The first transition of the example machine has no policy of its own and gets
the default one. -/
theorem emitted_retry_policy_witness :
    ∃ file f, stateTemplateExecute String.capitalize "StateMachine" exampleStates =
        Except.ok file ∧
      file.steps[0]? = some f ∧ f.Name = "foo" ∧
      (∀ p, (none : Option (statev1.RetryPolicy ℚ)) = some p →
        ∃ r, f.Retries = some r ∧ r.MaxAttempts = p.MaxAttempts ∧
          r.InitialRetryInterval = p.InitialRetryIntervalSeconds * timeSecond ∧
          r.BackoffCoefficient = p.BackoffCoefficient ∧
          r.MaxRetryInterval = p.MaxRetryIntervalSeconds * timeSecond ∧
          r.RetryTimeout = p.RetryTimeoutSeconds * timeSecond) ∧
      ((none : Option (statev1.RetryPolicy ℚ)) = none → ∀ d,
        exampleStates.DefaultRetryPolicy = some d →
        ∃ r, f.Retries = some r ∧ r.MaxAttempts = d.MaxAttempts ∧
          r.InitialRetryInterval = d.InitialRetryIntervalSeconds * timeSecond ∧
          r.BackoffCoefficient = d.BackoffCoefficient ∧
          r.MaxRetryInterval = d.MaxRetryIntervalSeconds * timeSecond ∧
          r.RetryTimeout = d.RetryTimeoutSeconds * timeSecond) ∧
      ((none : Option (statev1.RetryPolicy ℚ)) = none →
        exampleStates.DefaultRetryPolicy = none → f.Retries = none) :=
  emitted_retry_policy String.capitalize "StateMachine" exampleStates 0
    { Name := "foo", RetryPolicy := none } rfl

/-- C5, as the code has it: for every non-empty transition list accepted by
`validateTransitions`, validation and template execution succeed, and the step
chain emitted has one step function per transition in transition order (so as
many as there are transitions), has the entrypoint call the step function of the
first transition, has the step function of transition `i` call, for its `Next`,
the step function of transition `i + 1` whenever there is one, and has no `Next`
in the last step function. -/
theorem emitted_step_chain (camelCase : String → String) (machine : String)
    (state : statev1.States F)
    (hne : state.Transitions ≠ [])
    (hvalid : validateTransitions state.Transitions = none) :
    ∃ file, addPathsExecute camelCase machine state = Except.ok file ∧
      file.steps.length = state.Transitions.length ∧
      (∃ f, file.steps[0]? = some f ∧ file.Entrypoint = f.ident) ∧
      (∀ i t, state.Transitions[i]? = some t →
        ∃ f, file.steps[i]? = some f ∧ f.Name = t.Name ∧
          f.ident = "workflowStep" ++ camelCase t.Name ∧ f.Fn = camelCase t.Name ∧
          f.Retries = emitRetries t state ∧
          f.Next = (file.steps[i + 1]?).map (fun g => g.ident)) ∧
      (∀ f, file.steps.getLast? = some f → f.Next = none) := by
  obtain ⟨t0, rest, hts⟩ := List.exists_cons_of_ne_nil hne
  refine ⟨_, addPathsExecute_of_valid camelCase machine state t0 rest hts hvalid, ?_, ?_, ?_, ?_⟩
  · exact emitStepsFrom_length _ _ _ _
  · refine ⟨emitStep camelCase state 0 t0, ?_, rfl⟩
    simp [emitStepsFrom_get?, hts]
  · intro i t ht
    refine ⟨emitStep camelCase state i t, ?_, rfl, rfl, rfl, rfl, ?_⟩
    · simp only [emitStepsFrom_get?, ht, Option.map_some', Nat.zero_add]
    · simp only [emitStep, next_eq_get?, emitStepsFrom_get?, List.get?_eq_getElem?,
        Option.map_map]
      rfl
  · intro f hf
    simp only [List.getLast?_eq_getElem?, emitStepsFrom_length, emitStepsFrom_get?,
      Nat.zero_add] at hf
    cases hget : state.Transitions[state.Transitions.length - 1]? with
    | none => rw [hget] at hf; simp at hf
    | some t =>
      rw [hget] at hf
      simp only [Option.map_some', Option.some.injEq] at hf
      subst hf
      have hlen : 0 < state.Transitions.length := List.length_pos.mpr hne
      have hnone : state.Transitions.get? (state.Transitions.length - 1 + 1) = none := by
        apply List.get?_eq_none.mpr
        omega
      simp only [emitStep, next_eq_get?, hnone, Option.map_none']

/-- The example machine passes validation and the template; its three step
functions are chained in order. -/
theorem emitted_step_chain_witness :
    ∃ file, addPathsExecute String.capitalize "StateMachine" exampleStates = Except.ok file ∧
      file.steps.length = exampleStates.Transitions.length ∧
      (∃ f, file.steps[0]? = some f ∧ file.Entrypoint = f.ident) ∧
      (∀ i t, exampleStates.Transitions[i]? = some t →
        ∃ f, file.steps[i]? = some f ∧ f.Name = t.Name ∧
          f.ident = "workflowStep" ++ String.capitalize t.Name ∧
          f.Fn = String.capitalize t.Name ∧
          f.Retries = emitRetries t exampleStates ∧
          f.Next = (file.steps[i + 1]?).map (fun g => g.ident)) ∧
      (∀ f, file.steps.getLast? = some f → f.Next = none) :=
  emitted_step_chain String.capitalize "StateMachine" exampleStates
    (by simp [exampleStates]) rfl

/-- C5 fails as stated: the empty transition list is accepted by
`validateTransitions`, yet `entrypoint` returns `nil` for it and the template
stops with an execution error at `(entrypoint $state).Name`, so nothing is
emitted. -/
theorem addPathsExecute_empty_list_fails :
    validateTransitions
        ({ Transitions := [], DefaultRetryPolicy := none } : statev1.States ℚ).Transitions =
      none ∧
    entrypoint ({ Transitions := [], DefaultRetryPolicy := none } : statev1.States ℚ) = none ∧
    addPathsExecute String.capitalize "StateMachine"
        ({ Transitions := [], DefaultRetryPolicy := none } : statev1.States ℚ) =
      Except.error (GoError.errorf "nil pointer evaluating %s.%s"
        ["*statev1.StateTransition", "Name"]) := by
  refine ⟨rfl, rfl, rfl⟩

end TemplateClaims

/-! ## Claims about the orchestration driver -/

section DriverClaims

variable {F T : Type}

open workflows

/-- C2 does not hold of the code. In the chain `foo`, `bar`, `baz` of the example
with a handler whose `Foo` sets `A` to `x` and whose `Bar` resets `A` to the
empty string, the names are distinct and no handler fails, and on the zero
payload the driver issues the three activity calls once each in chain order;
the handlers composed in chain order yield an empty `A`, but the driver returns
`A = x`: `Bar`'s result is encoded without the empty field, and `Await(&output)`
decodes it into the one variable `output`, which still holds `Foo`'s result. -/
theorem ToOrchestration_keeps_reset_field :
    ((chainSteps (examplev1.stateMachineWorkflow
        examplepkg.resettingHandler).Entrypoint).map (fun s => s.Name)).Nodup ∧
    (∀ s ∈ chainSteps (examplev1.stateMachineWorkflow examplepkg.resettingHandler).Entrypoint,
      ∀ x, (s.Fn x).2 = none) ∧
    ((examplev1.stateMachineWorkflow examplepkg.resettingHandler).ToOrchestration
        examplev1.StateMachine.zero
        (engineContext examplev1.StateMachine.codec examplev1.StateMachine.zero
          (examplev1.stateMachineWorkflow examplepkg.resettingHandler)
          examplev1.StateMachine.zero)).2.calls.map (fun c => c.Name) = ["foo", "bar", "baz"] ∧
    (chainSteps (examplev1.stateMachineWorkflow examplepkg.resettingHandler).Entrypoint).foldl
        (fun y s => (s.Fn y).1) examplev1.StateMachine.zero = { A := "", B := "", C := "" } ∧
    ((examplev1.stateMachineWorkflow examplepkg.resettingHandler).ToOrchestration
        examplev1.StateMachine.zero
        (engineContext examplev1.StateMachine.codec examplev1.StateMachine.zero
          (examplev1.stateMachineWorkflow examplepkg.resettingHandler)
          examplev1.StateMachine.zero)).1 = Except.ok { A := "x", B := "", C := "" } := by
  refine ⟨?_, ?_, rfl, rfl, rfl⟩
  · rw [example_chainSteps]
    decide
  · intro s hs x
    simp only [example_chainSteps, List.mem_cons, List.mem_singleton, List.not_mem_nil,
      or_false] at hs
    rcases hs with rfl | rfl | rfl <;> rfl

/-- C3: when the first `k` steps of the chain succeed (step `i` turning payload
`ps[i]` into `ps[i+1]`) and the unit of work of step `k` ends in the error `e`,
the driver returns exactly `e` and no payload, and the activity calls it has
issued are those of steps `0..k` only, once each and in order. The variable
`output` each call is awaited into holds the zero value at the first step and
the current payload afterwards. -/
theorem ToOrchestration_stops_at_first_error (w : Workflow F T) (zero : T)
    (ctx : task.OrchestrationContext F T) (ps : List T) (k : Nat) (e : GoError)
    (hps : ps.length = k + 1) (hk : k < (chainSteps w.Entrypoint).length)
    (hin : ctx.GetInput = Except.ok (ps.get ⟨0, by omega⟩))
    (hok : ∀ i (hi : i < k),
      ctx.Await ((chainSteps w.Entrypoint).get ⟨i, by omega⟩).Name (ps.get ⟨i, by omega⟩)
        (policyOf ((chainSteps w.Entrypoint).get ⟨i, by omega⟩))
        (if i = 0 then zero else ps.get ⟨i, by omega⟩) =
          Except.ok (ps.get ⟨i + 1, by omega⟩))
    (hfail : ctx.Await ((chainSteps w.Entrypoint).get ⟨k, hk⟩).Name (ps.get ⟨k, by omega⟩)
        (policyOf ((chainSteps w.Entrypoint).get ⟨k, hk⟩))
        (if k = 0 then zero else ps.get ⟨k, by omega⟩) = Except.error e) :
    (w.ToOrchestration zero ctx).1 = Except.error e ∧
      (w.ToOrchestration zero ctx).2.calls =
        ctx.calls ++ List.zipWith callOf ((chainSteps w.Entrypoint).take (k + 1)) ps ∧
      ((w.ToOrchestration zero ctx).2.calls).length = ctx.calls.length + (k + 1) := by
  cases ps with
  | nil => simp at hps
  | cons x outs =>
    have hlen : outs.length = k := by simpa using hps
    subst hlen
    simp only [List.get_eq_getElem, List.getElem_cons_zero] at hin
    have hvar : ∀ i (hi : i < outs.length + 1),
        (if i = 0 then zero else (x :: outs).get ⟨i, by simpa using hi⟩) =
          (zero :: outs).get ⟨i, by simpa using hi⟩ := by
      intro i hi
      cases i with
      | zero => simp
      | succ j => simp
    have h := loopList_first_failure (chainSteps w.Entrypoint) x zero outs ctx e hk
      (by
        intro i hi
        have h1 := hok i hi
        rw [hvar i (by omega)] at h1
        simpa using h1)
      (by
        have h1 := hfail
        rw [hvar outs.length (by omega)] at h1
        simpa using h1)
    have hz : List.zipWith callOf ((chainSteps w.Entrypoint).take (outs.length + 1)) (x :: outs) =
        List.zipWith callOf (chainSteps w.Entrypoint) (x :: outs) := by
      have := zipWith_take_length (chainSteps w.Entrypoint) (x :: outs)
      simpa using this
    have hrun : w.ToOrchestration zero ctx =
        loopList (chainSteps w.Entrypoint) x zero ctx := by
      unfold Workflow.ToOrchestration
      rw [hin]
      simp only [ToOrchestrationLoop_eq_loopList]
    rw [hrun, h, hz]
    refine ⟨rfl, rfl, ?_⟩
    simp [List.length_zipWith]
    omega

/-- In the example chain with a failing `Bar`, the first step succeeds, the
second fails, and the driver stops there with two activity calls. -/
theorem ToOrchestration_stops_at_first_error_witness :
    ((examplev1.stateMachineWorkflow examplepkg.failingBarHandler).ToOrchestration
        examplev1.StateMachine.zero
        (engineContext examplev1.StateMachine.codec examplev1.StateMachine.zero
          (examplev1.stateMachineWorkflow examplepkg.failingBarHandler)
          examplev1.StateMachine.zero)).1 = Except.error (GoError.errorsNew "bar failed") ∧
      ((examplev1.stateMachineWorkflow examplepkg.failingBarHandler).ToOrchestration
        examplev1.StateMachine.zero
        (engineContext examplev1.StateMachine.codec examplev1.StateMachine.zero
          (examplev1.stateMachineWorkflow examplepkg.failingBarHandler)
          examplev1.StateMachine.zero)).2.calls =
        (engineContext examplev1.StateMachine.codec examplev1.StateMachine.zero
          (examplev1.stateMachineWorkflow examplepkg.failingBarHandler)
          examplev1.StateMachine.zero).calls ++
          List.zipWith callOf
            ((chainSteps (examplev1.stateMachineWorkflow
              examplepkg.failingBarHandler).Entrypoint).take (1 + 1))
            [examplev1.StateMachine.zero, { A := "Foo", B := "", C := "" }] ∧
      (((examplev1.stateMachineWorkflow examplepkg.failingBarHandler).ToOrchestration
        examplev1.StateMachine.zero
        (engineContext examplev1.StateMachine.codec examplev1.StateMachine.zero
          (examplev1.stateMachineWorkflow examplepkg.failingBarHandler)
          examplev1.StateMachine.zero)).2.calls).length =
        (engineContext examplev1.StateMachine.codec examplev1.StateMachine.zero
          (examplev1.stateMachineWorkflow examplepkg.failingBarHandler)
          examplev1.StateMachine.zero).calls.length + (1 + 1) :=
  ToOrchestration_stops_at_first_error
    (examplev1.stateMachineWorkflow examplepkg.failingBarHandler)
    examplev1.StateMachine.zero
    (engineContext examplev1.StateMachine.codec examplev1.StateMachine.zero
      (examplev1.stateMachineWorkflow examplepkg.failingBarHandler)
      examplev1.StateMachine.zero)
    [examplev1.StateMachine.zero, { A := "Foo", B := "", C := "" }] 1
    (GoError.errorsNew "bar failed") rfl (by decide) rfl
    (by
      intro i hi
      obtain rfl : i = 0 := by omega
      rfl)
    rfl

end DriverClaims

/-! ## Lemmas on the processor -/

section ProcessorLemmas

variable {U : Type} {El : U → Type} {F : Type}

open workflows

theorem buildWorkflows_eq (regs : List (Registration F El)) :
    ∀ (m : String → Option (Registration F El)) (name : String),
      buildWorkflows regs m name =
        (regs.reverse.find? (fun r => r.name = name)).or (m name) := by
  induction regs with
  | nil => intro m name; simp [buildWorkflows]
  | cons r rest ih =>
    intro m name
    simp only [buildWorkflows, ih, List.reverse_cons, List.find?_append]
    cases hfind : rest.reverse.find? (fun r => decide (r.name = name)) with
    | some q => simp
    | none =>
      by_cases h : r.name = name
      · simp [List.find?_cons, h]
      · have h1 : ¬ name = r.name := fun e => h e.symm
        simp [List.find?_cons, h, h1]

theorem Build_workflows (b : WorkflowProcessorBuilder F El) (name : String) :
    b.Build.workflows name = b.registrations.reverse.find? (fun r => r.name = name) := by
  simp [WorkflowProcessorBuilder.Build, buildWorkflows_eq]

theorem Start_workflows (p : WorkflowProcessor F El) : p.Start.2.workflows = p.workflows := by
  unfold WorkflowProcessor.Start
  cases p.backend.Start p.calls <;> rfl

theorem RunWorkflow_workflows (p : WorkflowProcessor F El) (name : String)
    (inputs : List (GoAny El)) : (p.RunWorkflow name inputs).2.workflows = p.workflows := by
  unfold WorkflowProcessor.RunWorkflow
  cases p.workflows name <;> rfl

theorem Shutdown_workflows (p : WorkflowProcessor F El) :
    p.Shutdown.2.workflows = p.workflows := by
  unfold WorkflowProcessor.Shutdown
  cases p.worker <;> rfl

theorem errorsJoin_pair_eq_none_iff (a b : Option GoError) :
    errorsJoin [a, b] = none ↔ a = none ∧ b = none := by
  cases a <;> cases b <;> simp [errorsJoin]

end ProcessorLemmas

/-! ## Claims about registrations and the processor -/

section ProcessorClaims

variable {U : Type} {El : U → Type} {F : Type}

open workflows

/-- C6: on a processor built from a builder (in any later state: `Start`,
`RunWorkflow` and `Shutdown` leave the `workflows` map as `Build` made it),
`RunWorkflow` with a name that no registration of the builder carries returns an
error and no `Future`, whatever the inputs, and leaves the processor, and with it
the log of scheduling calls of its client, unchanged. -/
theorem RunWorkflow_unknown_name (b : WorkflowProcessorBuilder F El)
    (p : WorkflowProcessor F El) (hp : p.workflows = b.Build.workflows) (name : String)
    (inputs : List (GoAny El)) (hname : ∀ r ∈ b.registrations, r.name ≠ name) :
    (p.RunWorkflow name inputs).1 =
        Except.error (GoError.errorf "workflow %q not registered" [name]) ∧
      (p.RunWorkflow name inputs).2.client.scheduled = p.client.scheduled ∧
      (p.RunWorkflow name inputs).2 = p := by
  have hnone : p.workflows name = none := by
    rw [hp, Build_workflows, List.find?_eq_none]
    intro r hr
    simpa using hname r (List.mem_reverse.mp hr)
  simp [WorkflowProcessor.RunWorkflow, hnone]

/-- The example processor does not know the workflow name `Other`. -/
theorem RunWorkflow_unknown_name_witness :
    (examplepkg.exampleBuilder.Build.RunWorkflow "Other"
        [some ⟨examplepkg.ExampleType.string, "x"⟩]).1 =
        Except.error (GoError.errorf "workflow %q not registered" ["Other"]) ∧
      (examplepkg.exampleBuilder.Build.RunWorkflow "Other"
        [some ⟨examplepkg.ExampleType.string, "x"⟩]).2.client.scheduled =
          examplepkg.exampleBuilder.Build.client.scheduled ∧
      (examplepkg.exampleBuilder.Build.RunWorkflow "Other"
        [some ⟨examplepkg.ExampleType.string, "x"⟩]).2 = examplepkg.exampleBuilder.Build :=
  RunWorkflow_unknown_name examplepkg.exampleBuilder examplepkg.exampleBuilder.Build rfl "Other"
    [some ⟨examplepkg.ExampleType.string, "x"⟩] (by
      intro r hr
      simp only [examplepkg.exampleBuilder, WorkflowProcessorBuilder.Register,
        NewWorkflowProcessorBuilder, List.nil_append, List.cons_append, List.mem_cons,
        List.mem_singleton, List.not_mem_nil, or_false] at hr
      rcases hr with rfl | rfl <;> decide)

/-- C7: the constructor function of `NewRegistration` over payload type `T`
fails with the too-many-inputs error whenever more than one input is supplied,
whatever the inputs are; fails with the input-type-mismatch error when the single
input is `nil` or has a dynamic type other than `T`; in both cases the client's
log of scheduling calls is unchanged. With a single input of type `T` it
schedules the workflow with that value, and with no input it schedules it with
the zero value of `T`; the result is then the engine's answer (a `Future` on the
new instance id, or the scheduling error). -/
theorem NewRegistration_constructor [DecidableEq U] (zero : (u : U) → El u) (T : U)
    (w : Workflow F (El T)) (client : backend.TaskHubClient El) :
    (∀ inputs : List (GoAny El), inputs.length > 1 →
      (NewRegistration zero T w).workflow client inputs =
        (Except.error (GoError.errorsNew "cannot pass more than a single input"), client)) ∧
    (∀ x : GoAny El, (x = none ∨ ∃ u v, x = some ⟨u, v⟩ ∧ u ≠ T) →
      (NewRegistration zero T w).workflow client [x] =
        (Except.error (GoError.errorsNew "input type does not match workflow input type"),
          client)) ∧
    (∀ v : El T,
      (NewRegistration zero T w).workflow client [some ⟨T, v⟩] =
        ((client.reply client.scheduled { orchestrator := w.Name, input := some ⟨T, v⟩ }).map
            (fun id => ({ id := id } : Future)),
          { client with
            scheduled := client.scheduled ++
              [{ orchestrator := w.Name, input := some ⟨T, v⟩ }] })) ∧
    (NewRegistration zero T w).workflow client [] =
      ((client.reply client.scheduled { orchestrator := w.Name, input := some ⟨T, zero T⟩ }).map
          (fun id => ({ id := id } : Future)),
        { client with
          scheduled := client.scheduled ++
            [{ orchestrator := w.Name, input := some ⟨T, zero T⟩ }] }) := by
  refine ⟨?_, ?_, ?_, ?_⟩
  · intro inputs h
    simp [NewRegistration, h]
  · intro x hx
    have hassert : typeAssert x T = none := by
      rcases hx with rfl | ⟨u, v, rfl, hne⟩
      · rfl
      · simp [typeAssert, hne]
    simp [NewRegistration, hassert]
  · intro v
    have hassert : typeAssert (some ⟨T, v⟩ : GoAny El) T = some v := by
      simp [typeAssert]
    simp only [NewRegistration, List.length_singleton, gt_iff_lt, lt_self_iff_false, if_false,
      hassert, backend.TaskHubClient.ScheduleNewOrchestration]
    cases client.reply client.scheduled { orchestrator := w.Name, input := some ⟨T, v⟩ } <;> rfl
  · simp only [NewRegistration, List.length_nil, gt_iff_lt, Nat.not_lt_zero, if_false,
      backend.TaskHubClient.ScheduleNewOrchestration]
    cases client.reply client.scheduled
      { orchestrator := w.Name, input := some ⟨T, zero T⟩ } <;> rfl

/-- The example registration rejects two inputs and a `string` input without
scheduling, and schedules a payload input. -/
theorem NewRegistration_constructor_witness :
    (examplepkg.exampleRegistration examplepkg.ExampleWorkflowHandler).workflow
        (backend.NewTaskHubClient examplepkg.exampleBackend)
        [some ⟨examplepkg.ExampleType.stateMachine, examplev1.StateMachine.zero⟩,
          some ⟨examplepkg.ExampleType.stateMachine, examplev1.StateMachine.zero⟩] =
      (Except.error (GoError.errorsNew "cannot pass more than a single input"),
        backend.NewTaskHubClient examplepkg.exampleBackend) ∧
    (examplepkg.exampleRegistration examplepkg.ExampleWorkflowHandler).workflow
        (backend.NewTaskHubClient examplepkg.exampleBackend)
        [some ⟨examplepkg.ExampleType.string, "x"⟩] =
      (Except.error (GoError.errorsNew "input type does not match workflow input type"),
        backend.NewTaskHubClient examplepkg.exampleBackend) :=
  ⟨(NewRegistration_constructor examplepkg.exampleZero examplepkg.ExampleType.stateMachine
      (examplev1.stateMachineWorkflow examplepkg.ExampleWorkflowHandler)
      (backend.NewTaskHubClient examplepkg.exampleBackend)).1 _ (by decide),
    (NewRegistration_constructor examplepkg.exampleZero examplepkg.ExampleType.stateMachine
      (examplev1.stateMachineWorkflow examplepkg.ExampleWorkflowHandler)
      (backend.NewTaskHubClient examplepkg.exampleBackend)).2.1 _
      (Or.inr ⟨examplepkg.ExampleType.string, "x", rfl, by decide⟩)⟩

/-- C8: on a processor without a worker (which is the state `Build` leaves, and
the state in which `Start` was never called), `Shutdown` makes exactly one call
into the engine, the backend stop, makes no worker-shutdown call, and returns
exactly the result of the backend stop. -/
theorem Shutdown_without_worker (p : WorkflowProcessor F El) (hw : p.worker = none) :
    p.Shutdown.2.calls = p.calls ++ [backend.EngineCall.backendStop] ∧
      backend.EngineCall.workerShutdown ∉
        p.Shutdown.2.calls.drop p.calls.length ∧
      p.Shutdown.1 = p.backend.Stop p.calls ∧
      (p.backend.Stop p.calls = none → p.Shutdown.1 = none) ∧
      (∀ err, p.backend.Stop p.calls = some err → p.Shutdown.1 = some err) := by
  have h : p.Shutdown = (p.backend.Stop p.calls,
      { p with calls := p.calls ++ [backend.EngineCall.backendStop] }) := by
    simp [WorkflowProcessor.Shutdown, hw]
  rw [h]
  refine ⟨rfl, ?_, rfl, fun h1 => h1, fun err h1 => h1⟩
  simp

/-- A freshly built processor has no worker; shutting it down stops the backend
only. -/
theorem Shutdown_without_worker_witness :
    examplepkg.exampleBuilder.Build.worker = none ∧
      examplepkg.exampleBuilder.Build.Shutdown.2.calls = [backend.EngineCall.backendStop] ∧
      examplepkg.exampleBuilder.Build.Shutdown.1 = none :=
  ⟨rfl, (Shutdown_without_worker examplepkg.exampleBuilder.Build rfl).1,
    (Shutdown_without_worker examplepkg.exampleBuilder.Build rfl).2.2.1⟩

/-- C9, as the code has it: on a processor with a worker, `Shutdown` stops the
backend first and shuts the worker down second, makes both calls whatever the
first one returns, and returns `errors.Join` of the two results: `nil` exactly
when both succeed, and otherwise an error that wraps each non-nil result. -/
theorem Shutdown_with_worker (p : WorkflowProcessor F El) (worker : backend.TaskHubWorker)
    (hw : p.worker = some worker) :
    p.Shutdown.2.calls =
        p.calls ++ [backend.EngineCall.backendStop, backend.EngineCall.workerShutdown] ∧
      p.Shutdown.1 =
        errorsJoin [p.backend.Stop p.calls,
          worker.Shutdown (p.calls ++ [backend.EngineCall.backendStop])] ∧
      (p.Shutdown.1 = none ↔
        p.backend.Stop p.calls = none ∧
          worker.Shutdown (p.calls ++ [backend.EngineCall.backendStop]) = none) ∧
      (∀ e, (p.backend.Stop p.calls = some e ∨
          worker.Shutdown (p.calls ++ [backend.EngineCall.backendStop]) = some e) →
        ∃ errs, p.Shutdown.1 = some (GoError.join errs) ∧ e ∈ errs) := by
  have h : p.Shutdown =
      (errorsJoin [p.backend.Stop p.calls,
          worker.Shutdown (p.calls ++ [backend.EngineCall.backendStop])],
        { p with calls := p.calls ++
            [backend.EngineCall.backendStop, backend.EngineCall.workerShutdown] }) := by
    simp [WorkflowProcessor.Shutdown, hw]
  rw [h]
  refine ⟨rfl, rfl, errorsJoin_pair_eq_none_iff _ _, ?_⟩
  intro e he
  cases h1 : p.backend.Stop p.calls <;>
    cases h2 : worker.Shutdown (p.calls ++ [backend.EngineCall.backendStop]) <;>
    simp [h1, h2] at he <;>
    simp [errorsJoin, he]
  rcases he with rfl | rfl <;> simp

/-- After `Start`, the example processor has a worker, and `Shutdown` stops the
backend and then the worker. -/
theorem Shutdown_with_worker_witness :
    examplepkg.exampleBuilder.Build.Start.2.worker =
        some examplepkg.exampleBackend.NewTaskHubWorker ∧
      examplepkg.exampleBuilder.Build.Start.2.Shutdown.2.calls =
        examplepkg.exampleBuilder.Build.Start.2.calls ++
          [backend.EngineCall.backendStop, backend.EngineCall.workerShutdown] :=
  ⟨rfl, (Shutdown_with_worker examplepkg.exampleBuilder.Build.Start.2
    examplepkg.exampleBackend.NewTaskHubWorker rfl).1⟩

/-- C9 fails as stated: on the started example processor `Shutdown` calls the
backend stop before the worker shutdown, not after it. -/
theorem Shutdown_stops_backend_first :
    examplepkg.exampleBuilder.Build.Start.2.worker.isSome = true ∧
      examplepkg.exampleBuilder.Build.Start.2.Shutdown.2.calls =
        [backend.EngineCall.backendStart, backend.EngineCall.workerStart,
          backend.EngineCall.backendStop, backend.EngineCall.workerShutdown] ∧
      examplepkg.exampleBuilder.Build.Start.2.Shutdown.2.calls ≠
        examplepkg.exampleBuilder.Build.Start.2.calls ++
          [backend.EngineCall.workerShutdown, backend.EngineCall.backendStop] := by
  refine ⟨rfl, rfl, ?_⟩
  decide

/-- C10: `Build` is total (it has no error result, duplicate names included). On
the processor built from a builder, in any later state, a name is known to
`RunWorkflow` if and only if some registration of the builder carries it, and
`RunWorkflow` dispatches to the constructor of the last registration, in
registration order, that carries the name: its result is that constructor's
result on the processor's client and the given inputs. `Register` appends to
the registration order. -/
theorem RunWorkflow_last_registration (b : WorkflowProcessorBuilder F El)
    (p : WorkflowProcessor F El) (hp : p.workflows = b.Build.workflows) (name : String) :
    (∀ regs, (b.Register regs).registrations = b.registrations ++ regs) ∧
    ((p.workflows name).isSome = true ↔ ∃ r ∈ b.registrations, r.name = name) ∧
    (∀ pre r post, b.registrations = pre ++ r :: post → r.name = name →
      (∀ q ∈ post, q.name ≠ name) →
        p.workflows name = some r ∧
        ∀ inputs, p.RunWorkflow name inputs =
          ((r.workflow p.client inputs).1,
            { p with client := (r.workflow p.client inputs).2 })) := by
  refine ⟨fun _ => rfl, ?_, ?_⟩
  · rw [hp, Build_workflows, List.find?_isSome]
    constructor
    · rintro ⟨r, hr, hname⟩
      exact ⟨r, List.mem_reverse.mp hr, by simpa using hname⟩
    · rintro ⟨r, hr, hname⟩
      exact ⟨r, List.mem_reverse.mpr hr, by simpa using hname⟩
  · intro pre r post hregs hname hpost
    have hfind : p.workflows name = some r := by
      rw [hp, Build_workflows, hregs]
      simp only [List.reverse_append, List.reverse_cons, List.append_assoc, List.find?_append]
      have h1 : post.reverse.find? (fun r => decide (r.name = name)) = none := by
        rw [List.find?_eq_none]
        intro q hq
        simpa using hpost q (List.mem_reverse.mp hq)
      simp [h1, List.find?_cons, hname]
    refine ⟨hfind, ?_⟩
    intro inputs
    simp [WorkflowProcessor.RunWorkflow, hfind]

/-- The example builder registered the name `StateMachine` twice; the built
processor dispatches to the second registration. -/
theorem RunWorkflow_last_registration_witness :
    examplepkg.exampleBuilder.Build.workflows "StateMachine" =
        some (examplepkg.exampleRegistration examplepkg.failingBarHandler) ∧
      ∀ inputs, examplepkg.exampleBuilder.Build.RunWorkflow "StateMachine" inputs =
        (((examplepkg.exampleRegistration examplepkg.failingBarHandler).workflow
            examplepkg.exampleBuilder.Build.client inputs).1,
          { examplepkg.exampleBuilder.Build with
            client := ((examplepkg.exampleRegistration examplepkg.failingBarHandler).workflow
              examplepkg.exampleBuilder.Build.client inputs).2 }) :=
  (RunWorkflow_last_registration examplepkg.exampleBuilder examplepkg.exampleBuilder.Build rfl
    "StateMachine").2.2 [examplepkg.exampleRegistration examplepkg.ExampleWorkflowHandler]
    (examplepkg.exampleRegistration examplepkg.failingBarHandler) [] rfl rfl
    (by intro q hq; simp at hq)

end ProcessorClaims

end ProtocStates
